import Mathlib

/-!
Shallow embedding of `curation_engine_pluggable.py` (pluggable curation
engine).  Python dictionaries are modelled as insertion-ordered association
lists, machine floats used for scores as rationals, exceptions as
`Except String`, and wall-clock measurements as rational parameters
(`dt`, the elapsed seconds observed by a given `time.time()` bracket).
`int(x)` is modelled by `pyInt` (truncation toward zero).
-/

/-- Values stored in the `metadata` dictionary of a result
(`Dict[str, Any]` in the source, restricted to the value shapes the
program actually stores). -/
inductive PyVal where
  | bool : Bool → PyVal
  | str : String → PyVal
  | int : Int → PyVal
  | rat : ℚ → PyVal
  | strList : List String → PyVal
deriving DecidableEq, Repr

/-- An insertion-ordered string-keyed dictionary, as Python dicts are. -/
abbrev PyDict := List (String × PyVal)

/-- `d[k] = v`: replace the value at an existing key in place, else append
(the update order Python dicts use). -/
def dictSet (k : String) (v : PyVal) : PyDict → PyDict
  | [] => [(k, v)]
  | (k1, v1) :: rest => if k1 = k then (k, v) :: rest else (k1, v1) :: dictSet k v rest

/-- `d.get(k)`: first (and only) binding of a key. -/
def dictGet (k : String) : PyDict → Option PyVal
  | [] => none
  | (k1, v1) :: rest => if k1 = k then some v1 else dictGet k rest

/-- `int(x)` on a rational: truncation toward zero. -/
def pyInt (q : ℚ) : Int := if 0 ≤ q then ⌊q⌋ else ⌈q⌉

/-- Python's two-argument `min`. -/
def pyMin (a b : ℚ) : ℚ := if b < a then b else a

/-- The `CurationResult` dataclass: the standardized result of every layer,
strategy and of the engine.  `processing_time_ms` is declared `int` in the
source but carried here as `ℚ` because one construction site passes a raw
float; `metadata` is `Dict[str, Any] = None`, hence an `Option PyDict`. -/
structure CurationResult where
  action : String
  reason : String
  confidence : ℚ
  safety_score : ℚ
  processing_time_ms : ℚ
  strategy_used : String
  metadata : Option PyDict := none
deriving DecidableEq, Repr

/-- The slice of `UserContext` the curation pipeline reads: the age
category, compared against the strings "UNDER_13" / "UNDER_16" and hashed
into the cache key.  The remaining fields (jurisdiction, parental
controls, preferences, sensitivity) are never consulted by the code under
study. -/
structure UserContext where
  age_category : String
deriving DecidableEq, Repr

/-! ### Character classes and pattern matching

Executable matchers for the regular expressions compiled by
`FastFilterLayer` and for Python's substring operator `in`.  All patterns
are compiled with `re.IGNORECASE`, so matching is performed on the
lowercased character list with lowercase literals. -/

/-- `\w`: a word character (ASCII letters, digits, underscore). -/
def isWordChar (c : Char) : Bool := c.isAlphanum || c = '_'

/-- `\s`: a whitespace character. -/
def isSpaceChar (c : Char) : Bool :=
  c = ' ' || c = '\t' || c = '\n' || c = '\r' || c = '\x0b' || c = '\x0c'

/-- Match a literal at the head of the input, returning the rest. -/
def matchLit : List Char → List Char → Option (List Char)
  | [], s => some s
  | _ :: _, [] => none
  | l :: ls, c :: cs => if c = l then matchLit ls cs else none

/-- Try each alternative literal and continue with `k` (backtracking
alternation `(a|b|c)` in continuation style). -/
def matchAlt (alts : List (List Char)) (k : List Char → Bool) (s : List Char) : Bool :=
  alts.any fun l =>
    match matchLit l s with
    | some rest => k rest
    | none => false

/-- Match a literal and continue with `k`. -/
def matchLitK (l : List Char) (k : List Char → Bool) (s : List Char) : Bool :=
  match matchLit l s with
  | some rest => k rest
  | none => false

/-- Drop a maximal run of whitespace. -/
def dropSpaces : List Char → List Char
  | [] => []
  | c :: cs => if isSpaceChar c then dropSpaces cs else c :: cs

/-- `\s+` followed by `k`.  Every continuation in the patterns below starts
with a non-space character, so maximal munch coincides with the regex
backtracking semantics. -/
def matchSpaces1 (k : List Char → Bool) : List Char → Bool
  | [] => false
  | c :: cs => isSpaceChar c && k (dropSpaces cs)

/-- Trailing `\b` after a word character: end of input or a non-word
character follows. -/
def kEndWordBoundary : List Char → Bool
  | [] => true
  | c :: _ => !isWordChar c

/-- Trailing `\w+\b`: a greedy run of word characters then a boundary,
which is satisfiable exactly when a word character is next. -/
def kWordRun : List Char → Bool
  | [] => false
  | c :: _ => isWordChar c

/-- `re.search` driver for a pattern anchored by a leading `\b` before a
word character: try the matcher at every position whose preceding
character is not a word character. -/
def searchBoundaryAux (m : List Char → Bool) (prevWord : Bool) : List Char → Bool
  | [] => !prevWord && m []
  | c :: cs => (!prevWord && m (c :: cs)) || searchBoundaryAux m (isWordChar c) cs

def searchBoundary (m : List Char → Bool) (s : List Char) : Bool :=
  searchBoundaryAux m false s

/-- `re.search` driver for an unanchored pattern: try at every position. -/
def searchAnywhere (m : List Char → Bool) : List Char → Bool
  | [] => m []
  | c :: cs => m (c :: cs) || searchAnywhere m cs

/-- Successful-prefix matcher for a plain literal. -/
def litHere (l : List Char) (s : List Char) : Bool := (matchLit l s).isSome

/-- `str.lower()` on one character (ASCII; the contents this program
inspects are ASCII). -/
def pyLowerChar (c : Char) : Char :=
  if 65 ≤ c.toNat ∧ c.toNat ≤ 90 then Char.ofNat (c.toNat + 32) else c

/-- `content.lower()` as a character list. -/
def lowerList (s : String) : List Char := s.toList.map pyLowerChar

/-- `word in content.lower()`: Python's substring operator applied to the
lowercased content. -/
def pyInLower (word : String) (content : String) : Bool :=
  searchAnywhere (litHere word.toList) (lowerList content)

/-! ### FastFilterLayer (layer 1, rule-based filters) -/

/-- Pattern `\b(fuck|shit|damn|bitch)\b` applied to a lowercased text. -/
def FastFilterLayer.pat1 (s : List Char) : Bool :=
  searchBoundary (matchAlt ["fuck".toList, "shit".toList, "damn".toList, "bitch".toList]
    kEndWordBoundary) s

/-- Pattern `\b(kill|murder|die)\s+(you|yourself|them)\b`. -/
def FastFilterLayer.pat2 (s : List Char) : Bool :=
  searchBoundary (matchAlt ["kill".toList, "murder".toList, "die".toList]
    (matchSpaces1 (matchAlt ["you".toList, "yourself".toList, "them".toList]
      kEndWordBoundary))) s

/-- Pattern `\b(hate|kill)\s+all\s+\w+\b`. -/
def FastFilterLayer.pat3 (s : List Char) : Bool :=
  searchBoundary (matchAlt ["hate".toList, "kill".toList]
    (matchSpaces1 (matchLitK "all".toList (matchSpaces1 kWordRun)))) s

/-- Pattern `bit\.ly/[0-9a-zA-Z]+`. -/
def FastFilterLayer.patBitly (s : List Char) : Bool :=
  searchAnywhere (matchLitK "bit.ly/".toList
    (fun rest => match rest with
      | [] => false
      | c :: _ => c.isAlphanum)) s

/-- Pattern `pornhub\.com`. -/
def FastFilterLayer.patPornhub (s : List Char) : Bool :=
  searchAnywhere (litHere "pornhub.com".toList) s

/-- Pattern `xxx\.`. -/
def FastFilterLayer.patXxx (s : List Char) : Bool :=
  searchAnywhere (litHere "xxx.".toList) s

/-- Pattern `\.onion`. -/
def FastFilterLayer.patOnion (s : List Char) : Bool :=
  searchAnywhere (litHere ".onion".toList) s

/-- The profanity / harmful-language pattern list (`profanity_patterns`). -/
def FastFilterLayer.profanityPatterns : List (List Char → Bool) :=
  [FastFilterLayer.pat1, FastFilterLayer.pat2, FastFilterLayer.pat3]

/-- The harmful-URL pattern list (`harmful_url_patterns`). -/
def FastFilterLayer.urlPatterns : List (List Char → Bool) :=
  [FastFilterLayer.patBitly, FastFilterLayer.patPornhub,
   FastFilterLayer.patXxx, FastFilterLayer.patOnion]

/-- Some profanity pattern matches the content (IGNORECASE). -/
def FastFilterLayer.profanityHit (content : String) : Bool :=
  FastFilterLayer.profanityPatterns.any fun p => p (lowerList content)

/-- Some harmful-URL pattern matches the content (IGNORECASE). -/
def FastFilterLayer.urlHit (content : String) : Bool :=
  FastFilterLayer.urlPatterns.any fun p => p (lowerList content)

/-- `FastFilterLayer.check`: return a blocking result on the first matching
rule (profanity rules before URL rules), `none` if no rule matches.
`dt` is the elapsed wall-clock seconds of the call. -/
def FastFilterLayer.profanityResult (dt : ℚ) : CurationResult :=
  { action := "block"
    reason := "Profanity or harmful language detected"
    confidence := 95/100
    safety_score := 1/10
    processing_time_ms := pyInt (dt * 1000)
    strategy_used := "fast_filter"
    metadata := some [("filter_type", PyVal.str "profanity")] }

def FastFilterLayer.urlResult (dt : ℚ) : CurationResult :=
  { action := "block"
    reason := "Harmful URL detected"
    confidence := 9/10
    safety_score := 5/100
    processing_time_ms := pyInt (dt * 1000)
    strategy_used := "fast_filter"
    metadata := some [("filter_type", PyVal.str "harmful_url")] }

def FastFilterLayer.check (dt : ℚ) (content : String) : Option CurationResult :=
  if FastFilterLayer.profanityHit content then
    some (FastFilterLayer.profanityResult dt)
  else if FastFilterLayer.urlHit content then
    some (FastFilterLayer.urlResult dt)
  else
    none

/-! ### SpecializedAILayer (layer 2, mock specialized models) -/

/-- `_mock_toxicity_analysis`: 0.2 per toxic word found as a substring of
the lowercased content, capped at 1.0. -/
def SpecializedAILayer.mock_toxicity_analysis (content : String) : ℚ :=
  pyMin ((((["hate", "kill", "stupid", "idiot", "moron", "threat"] : List String).filter
    (fun w => pyInLower w content)).length : ℚ) * (2/10)) 1

/-- `_mock_nsfw_analysis`: 0.25 per NSFW word found as a substring of the
lowercased content, capped at 1.0. -/
def SpecializedAILayer.mock_nsfw_analysis (content : String) : ℚ :=
  pyMin ((((["sex", "porn", "naked", "adult", "explicit"] : List String).filter
    (fun w => pyInLower w content)).length : ℚ) * (25/100)) 1

/-- `SpecializedAILayer.analyze` with thresholds `toxicity_threshold = 0.7`
and `nsfw_threshold = 0.8`: block above a threshold, else pass. -/
def SpecializedAILayer.analyze (dt : ℚ) (content : String) : Option CurationResult :=
  let toxicity := SpecializedAILayer.mock_toxicity_analysis content
  if toxicity > 7/10 then
    some { action := "block"
           reason := "High toxicity detected"
           confidence := 85/100
           safety_score := 1 - toxicity
           processing_time_ms := pyInt (dt * 1000)
           strategy_used := "specialized_ai"
           metadata := some [("ai_type", PyVal.str "toxicity"),
                             ("toxicity_score", PyVal.rat toxicity)] }
  else
    let nsfw := SpecializedAILayer.mock_nsfw_analysis content
    if nsfw > 8/10 then
      some { action := "block"
             reason := "NSFW content detected"
             confidence := 9/10
             safety_score := 1 - nsfw
             processing_time_ms := pyInt (dt * 1000)
             strategy_used := "specialized_ai"
             metadata := some [("ai_type", PyVal.str "nsfw"),
                               ("nsfw_score", PyVal.rat nsfw)] }
    else
      none

/-! ### MultiLayerStrategy

The strategy owns an in-memory cache keyed by
`md5(content + age_category)`; the hash is modelled by the pair itself.
The optional layer-3 LLM (`LLMOnlyStrategy` when BAML is available) is a
parameter `llm`; a raising call is an `Except.error` carrying the message.
Per-call wall-clock observations are collected in `Timing`. -/

/-- A raising-or-returning analysis function (layer-3 LLM or the
`LLMOnlyStrategy` of the hybrid). -/
abbrev AnalyzeFun := String → UserContext → Except String CurationResult

/-- The strategy cache: insertion-ordered map from (content, age_category)
to the stored result object. -/
abbrev Cache := List ((String × String) × CurationResult)

def cacheGet (k : String × String) : Cache → Option CurationResult
  | [] => none
  | (k1, r1) :: rest => if k1 = k then some r1 else cacheGet k rest

def cacheSet (k : String × String) (r : CurationResult) : Cache → Cache
  | [] => [(k, r)]
  | (k1, r1) :: rest => if k1 = k then (k, r) :: rest else (k1, r1) :: cacheSet k r rest

/-- Elapsed wall-clock seconds measured by the nested `time.time()`
brackets of one `MultiLayerStrategy.analyze_content` call. -/
structure Timing where
  dtSelf : ℚ := 0
  dtFast : ℚ := 0
  dtSpec : ℚ := 0
deriving Repr

/-- `_requires_llm_analysis`: long content, young user, watchlist word, or
more than two question marks. -/
def MultiLayerStrategy.requires_llm_analysis (content : String) (u : UserContext) : Bool :=
  decide (content.length > 500) ||
  (u.age_category = "UNDER_13" || u.age_category = "UNDER_16") ||
  (["political", "controversial", "opinion", "debate"] : List String).any
    (fun w => pyInLower w content) ||
  decide (content.toList.count '?' > 2)

/-- The fixed caution result of the escalation branch when no LLM is
configured.  Its `processing_time_ms` is `(time.time() - start_time) * 1000`
with no `int(...)` around it — the one construction site passing a raw
float. -/
def MultiLayerStrategy.cautionResult (dt : ℚ) : CurationResult :=
  { action := "caution"
    reason := "Complex content requires LLM analysis but BAML is not available"
    confidence := 5/10
    safety_score := 6/10
    processing_time_ms := dt * 1000
    strategy_used := "multi_layer_cautious"
    metadata := some [("baml_required", PyVal.bool true),
                      ("baml_available", PyVal.bool false),
                      ("engine_strategy", PyVal.str "multi_layer")] }

/-- The default allow result for content that passed all checks. -/
def MultiLayerStrategy.allowResult (dt : ℚ) : CurationResult :=
  { action := "allow"
    reason := "Passed all automated checks"
    confidence := 8/10
    safety_score := 9/10
    processing_time_ms := pyInt (dt * 1000)
    strategy_used := "multi_layer_auto"
    metadata := some [("layers_passed", PyVal.strList ["fast_filter", "specialized_ai"])] }

/-- `MultiLayerStrategy.analyze_content`.  Returns the outcome (result or
propagated exception) together with the cache state after the call.  On a
cache hit the stored object itself is mutated (`processing_time_ms = 1`,
`metadata["cache_hit"] = True`) and returned, so the updated object is
written back under its key to model the aliasing. -/
def MultiLayerStrategy.analyze_content (llm : Option AnalyzeFun) (t : Timing)
    (cache : Cache) (content : String) (u : UserContext) :
    Except String CurationResult × Cache :=
  match cacheGet (content, u.age_category) cache with
  | some cached =>
      let hit := { cached with
        processing_time_ms := 1
        metadata := some (dictSet "cache_hit" (PyVal.bool true) (cached.metadata.getD [])) }
      (Except.ok hit, cacheSet (content, u.age_category) hit cache)
  | none =>
    match FastFilterLayer.check t.dtFast content with
    | some fastResult => (Except.ok fastResult, cacheSet (content, u.age_category) fastResult cache)
    | none =>
      match SpecializedAILayer.analyze t.dtSpec content with
      | some specialResult => (Except.ok specialResult, cacheSet (content, u.age_category) specialResult cache)
      | none =>
        if MultiLayerStrategy.requires_llm_analysis content u then
          match llm with
          | some f =>
              match f content u with
              | Except.ok llmResult =>
                  let tagged := { llmResult with strategy_used := "multi_layer_llm" }
                  (Except.ok tagged, cacheSet (content, u.age_category) tagged cache)
              | Except.error e => (Except.error e, cache)
          | none =>
              let r := MultiLayerStrategy.cautionResult t.dtSelf
              (Except.ok r, cacheSet (content, u.age_category) r cache)
        else
          let r := MultiLayerStrategy.allowResult t.dtSelf
          (Except.ok r, cacheSet (content, u.age_category) r cache)

/-! ### HybridStrategy -/

/-- `_should_use_llm_only`: demo/test marker, nuance watchlist, educational
watchlist, or more than one political watchlist word. -/
def HybridStrategy.should_use_llm_only (content : String) (_u : UserContext) : Bool :=
  (pyInLower "demo" content || pyInLower "test" content) ||
  (["cultural", "religious", "philosophical", "ethical",
    "moral", "values", "belief", "opinion", "perspective"] : List String).any
    (fun w => pyInLower w content) ||
  (["learn", "education", "teaching", "academic",
    "study", "research", "knowledge"] : List String).any
    (fun w => pyInLower w content) ||
  decide ((((["political", "government", "policy", "election"] : List String).filter
    (fun w => pyInLower w content)).length) > 1)

/-- `HybridStrategy.analyze_content`: route to the LLM-only strategy
(retag `hybrid_llm`) when `_should_use_llm_only` holds, else to the
owned multi-layer strategy (retag `hybrid_multi`).  The retag mutates the
returned object, which on the multi-layer path is also the object stored
in the multi-layer cache, so the cache entry is rewritten accordingly. -/
def HybridStrategy.analyze_content (llmOnly : AnalyzeFun) (mlLlm : Option AnalyzeFun)
    (t : Timing) (cache : Cache) (content : String) (u : UserContext) :
    Except String CurationResult × Cache :=
  if HybridStrategy.should_use_llm_only content u then
    match llmOnly content u with
    | Except.ok r => (Except.ok { r with strategy_used := "hybrid_llm" }, cache)
    | Except.error e => (Except.error e, cache)
  else
    match MultiLayerStrategy.analyze_content mlLlm t cache content u with
    | (Except.ok r, cacheAfter) =>
        let tagged := { r with strategy_used := "hybrid_multi" }
        (Except.ok tagged, cacheSet (content, u.age_category) tagged cacheAfter)
    | (Except.error e, cacheAfter) => (Except.error e, cacheAfter)

/-! ### CurationEngine -/

/-- `CurationEngine.curate_content`, as a function of the outcome of the
one call it makes to the active strategy's `analyze_content`
(`strategyOutcome`), the configured strategy tag
(`self.strategy_type.value`) and the engine's own elapsed seconds `dt`.
On success the engine stamps `engine_strategy` and
`total_processing_time_ms` into the result's metadata via `dict.update`;
on any exception it returns a synthesized caution result. -/
def CurationEngine.curate_content (strategyTag : String) (dt : ℚ)
    (strategyOutcome : Except String CurationResult) : CurationResult :=
  match strategyOutcome with
  | Except.ok r =>
      let stamped := dictSet "total_processing_time_ms" (PyVal.int (pyInt (dt * 1000)))
        (dictSet "engine_strategy" (PyVal.str strategyTag) (r.metadata.getD []))
      { r with metadata := some stamped }
  | Except.error e =>
      { action := "caution"
        reason := "Engine error: " ++ e
        confidence := 0
        safety_score := 5/10
        processing_time_ms := pyInt (dt * 1000)
        strategy_used := "error_handling"
        metadata := some [("error", PyVal.str e)] }


/-- Content matched by at least one fast-filter rule (profanity or URL). -/
def FastFilterLayer.matched (content : String) : Bool :=
  FastFilterLayer.profanityHit content || FastFilterLayer.urlHit content

/-- A specialized-AI threshold fires on this content. -/
def SpecializedAILayer.fires (content : String) : Bool :=
  decide ((7:ℚ)/10 < SpecializedAILayer.mock_toxicity_analysis content) ||
  decide ((8:ℚ)/10 < SpecializedAILayer.mock_nsfw_analysis content)

/-- Cache states reachable by the multi-layer strategy's own operation
(the cache starts empty and is only written by `analyze_content`). -/
inductive MultiLayerStrategy.Reachable (llm : Option AnalyzeFun) : Cache → Prop where
  | init : MultiLayerStrategy.Reachable llm []
  | step (t : Timing) (content : String) (u : UserContext) {cache : Cache} :
      MultiLayerStrategy.Reachable llm cache →
      MultiLayerStrategy.Reachable llm
        (MultiLayerStrategy.analyze_content llm t cache content u).2

/-- Invariant of the multi-layer cache: an entry whose content matches a
fast-filter rule stores the fast filter's blocking core, and an entry on
which no layer fires and no escalation holds stores the default allow
core. -/
def MultiLayerStrategy.GoodEntry (c a : String) (r : CurationResult) : Prop :=
  (FastFilterLayer.matched c = true →
    r.action = "block" ∧ r.strategy_used = "fast_filter" ∧ (9:ℚ)/10 ≤ r.confidence) ∧
  (FastFilterLayer.matched c = false →
   SpecializedAILayer.fires c = false →
   MultiLayerStrategy.requires_llm_analysis c ⟨a⟩ = false →
    r.action = "allow" ∧ r.confidence = 8/10 ∧ r.safety_score = 9/10 ∧
    r.strategy_used = "multi_layer_auto")

def MultiLayerStrategy.CacheInv (cache : Cache) : Prop :=
  ∀ c a r, cacheGet (c, a) cache = some r → MultiLayerStrategy.GoodEntry c a r

/-- The in-place overlay the cache-hit path applies to the stored object:
`processing_time_ms = 1` and `metadata["cache_hit"] = True`; all other
fields are untouched. -/
def MultiLayerStrategy.hitCopy (cached : CurationResult) : CurationResult :=
  { cached with
    processing_time_ms := 1
    metadata := some (dictSet "cache_hit" (PyVal.bool true) (cached.metadata.getD [])) }

/-- The time-independent decision part of a result: everything except
`processing_time_ms`. -/
def decisionCore (r : CurationResult) : String × String × ℚ × ℚ × String × Option PyDict :=
  (r.action, r.reason, r.confidence, r.safety_score, r.strategy_used, r.metadata)

/-! ### Helper lemmas on dictionaries and the cache -/

theorem dictGet_dictSet (k1 k : String) (v : PyVal) (d : PyDict) :
    dictGet k1 (dictSet k v d) = if k1 = k then some v else dictGet k1 d := by
  induction d with
  | nil => simp only [dictSet, dictGet]; split_ifs <;> simp_all [eq_comm]
  | cons hd tl ih =>
      obtain ⟨k2, v2⟩ := hd
      simp only [dictSet, dictGet]
      split_ifs <;> simp_all [dictGet, eq_comm]

theorem dictGet_dictSet_self (k : String) (v : PyVal) (d : PyDict) :
    dictGet k (dictSet k v d) = some v := by
  simp [dictGet_dictSet]

theorem dictGet_dictSet_ne (k1 k : String) (v : PyVal) (d : PyDict) (hk : k1 ≠ k) :
    dictGet k1 (dictSet k v d) = dictGet k1 d := by
  simp [dictGet_dictSet, hk]

theorem cacheGet_cacheSet (k1 k : String × String) (r : CurationResult) (c : Cache) :
    cacheGet k1 (cacheSet k r c) = if k1 = k then some r else cacheGet k1 c := by
  induction c with
  | nil => simp only [cacheSet, cacheGet]; split_ifs <;> simp_all [eq_comm]
  | cons hd tl ih =>
      obtain ⟨k2, r2⟩ := hd
      simp only [cacheSet, cacheGet]
      split_ifs <;> simp_all [cacheGet, eq_comm]

theorem cacheGet_cacheSet_self (k : String × String) (r : CurationResult) (c : Cache) :
    cacheGet k (cacheSet k r c) = some r := by
  simp [cacheGet_cacheSet]



theorem FastFilterLayer.check_eq_none_iff (dt : ℚ) (content : String) :
    FastFilterLayer.check dt content = none ↔
      (FastFilterLayer.profanityHit content = false ∧
       FastFilterLayer.urlHit content = false) := by
  unfold FastFilterLayer.check
  by_cases h1 : FastFilterLayer.profanityHit content <;>
    by_cases h2 : FastFilterLayer.urlHit content <;> simp [h1, h2]

theorem SpecializedAILayer.analyze_eq_none_iff (dt : ℚ) (content : String) :
    SpecializedAILayer.analyze dt content = none ↔
      SpecializedAILayer.fires content = false := by
  unfold SpecializedAILayer.analyze SpecializedAILayer.fires
  by_cases h1 : (7:ℚ)/10 < SpecializedAILayer.mock_toxicity_analysis content <;>
    by_cases h2 : (8:ℚ)/10 < SpecializedAILayer.mock_nsfw_analysis content <;>
      simp [h1, h2]

theorem FastFilterLayer.check_eq_some_spec (dt : ℚ) (content : String) (r : CurationResult)
    (h : FastFilterLayer.check dt content = some r) :
    FastFilterLayer.matched content = true ∧ r.action = "block" ∧
    r.strategy_used = "fast_filter" ∧ (9:ℚ)/10 ≤ r.confidence := by
  unfold FastFilterLayer.check FastFilterLayer.profanityResult FastFilterLayer.urlResult at h
  by_cases h1 : FastFilterLayer.profanityHit content
  · simp only [h1, if_true] at h
    have hr := Option.some.inj h
    subst hr
    exact ⟨by simp [FastFilterLayer.matched, h1], rfl, rfl, by norm_num⟩
  · by_cases h2 : FastFilterLayer.urlHit content
    · simp only [h1, h2, if_true, Bool.false_eq_true, if_false] at h
      have hr := Option.some.inj h
      subst hr
      exact ⟨by simp [FastFilterLayer.matched, h2], rfl, rfl, by norm_num⟩
    · simp [h1, h2] at h

theorem SpecializedAILayer.analyze_eq_some_fires (dt : ℚ) (content : String)
    (r : CurationResult) (h : SpecializedAILayer.analyze dt content = some r) :
    SpecializedAILayer.fires content = true := by
  by_cases hf : SpecializedAILayer.fires content
  · exact hf
  · have hnone : SpecializedAILayer.analyze dt content = none :=
      (SpecializedAILayer.analyze_eq_none_iff dt content).mpr (by simpa using hf)
    rw [hnone] at h
    exact absurd h (by simp)




theorem MultiLayerStrategy.CacheInv_nil : MultiLayerStrategy.CacheInv [] := by
  intro c a r h
  simp [cacheGet] at h


theorem MultiLayerStrategy.matched_false_of_check_none (dt : ℚ) (content : String)
    (hf : FastFilterLayer.check dt content = none) :
    FastFilterLayer.matched content = false := by
  obtain ⟨h1, h2⟩ := (FastFilterLayer.check_eq_none_iff dt content).mp hf
  simp [FastFilterLayer.matched, h1, h2]

theorem MultiLayerStrategy.analyze_stored_good (llm : Option AnalyzeFun) (t : Timing)
    (cache : Cache) (content : String) (u : UserContext)
    (hinv : MultiLayerStrategy.CacheInv cache) :
    (MultiLayerStrategy.analyze_content llm t cache content u).2 = cache ∨
    ∃ res, (MultiLayerStrategy.analyze_content llm t cache content u).2 =
        cacheSet (content, u.age_category) res cache ∧
      MultiLayerStrategy.GoodEntry content u.age_category res := by
  unfold MultiLayerStrategy.analyze_content
  rcases hc : cacheGet (content, u.age_category) cache with _ | cached
  · rcases hf : FastFilterLayer.check t.dtFast content with _ | fr
    · have hm := MultiLayerStrategy.matched_false_of_check_none t.dtFast content hf
      rcases hs : SpecializedAILayer.analyze t.dtSpec content with _ | sr
      · by_cases hr : MultiLayerStrategy.requires_llm_analysis content u
        · rcases llm with _ | f
          · refine Or.inr ⟨MultiLayerStrategy.cautionResult t.dtSelf, by simp [hc, hf, hs, hr], ?_, ?_⟩
            · intro hmm
              rw [hm] at hmm
              exact absurd hmm (by simp)
            · intro _ _ hreq
              have h2 : MultiLayerStrategy.requires_llm_analysis content u = false := hreq
              simp [h2] at hr
          · rcases he : f content u with e | lr
            · exact Or.inl (by simp [hc, hf, hs, hr, he])
            · refine Or.inr ⟨{ lr with strategy_used := "multi_layer_llm" },
                by simp [hc, hf, hs, hr, he], ?_, ?_⟩
              · intro hmm
                rw [hm] at hmm
                exact absurd hmm (by simp)
              · intro _ _ hreq
                have h2 : MultiLayerStrategy.requires_llm_analysis content u = false := hreq
                simp [h2] at hr
        · refine Or.inr ⟨MultiLayerStrategy.allowResult t.dtSelf, by simp [hc, hf, hs, hr], ?_, ?_⟩
          · intro hmm
            rw [hm] at hmm
            exact absurd hmm (by simp)
          · intro _ _ _
            exact ⟨rfl, rfl, rfl, rfl⟩
      · refine Or.inr ⟨sr, by simp [hc, hf, hs], ?_, ?_⟩
        · intro hmm
          rw [hm] at hmm
          exact absurd hmm (by simp)
        · intro _ hfires _
          have := SpecializedAILayer.analyze_eq_some_fires t.dtSpec content sr hs
          simp [this] at hfires
    · obtain ⟨hmt, hb, hsu, hconf⟩ := FastFilterLayer.check_eq_some_spec t.dtFast content fr hf
      refine Or.inr ⟨fr, by simp [hc, hf], fun _ => ⟨hb, hsu, hconf⟩, ?_⟩
      intro hm2 _ _
      rw [hmt] at hm2
      exact absurd hm2 (by simp)
  · have hgood := hinv content u.age_category cached hc
    refine Or.inr ⟨{ cached with
        processing_time_ms := 1
        metadata := some (dictSet "cache_hit" (PyVal.bool true) (cached.metadata.getD [])) },
      by simp [hc], ?_, ?_⟩
    · intro hmm
      obtain ⟨hb, hsu, hconf⟩ := hgood.1 hmm
      exact ⟨hb, hsu, hconf⟩
    · intro hmm hfires hreq
      obtain ⟨hb, hcf, hsf, hsu⟩ := hgood.2 hmm hfires hreq
      exact ⟨hb, hcf, hsf, hsu⟩

theorem MultiLayerStrategy.CacheInv_step (llm : Option AnalyzeFun) (t : Timing)
    (cache : Cache) (content : String) (u : UserContext)
    (hinv : MultiLayerStrategy.CacheInv cache) :
    MultiLayerStrategy.CacheInv
      (MultiLayerStrategy.analyze_content llm t cache content u).2 := by
  rcases MultiLayerStrategy.analyze_stored_good llm t cache content u hinv with heq | ⟨res, heq, hgood⟩
  · rw [heq]
    exact hinv
  · intro c a r hget
    rw [heq, cacheGet_cacheSet] at hget
    split_ifs at hget with hk
    · obtain ⟨hc1, hc2⟩ := Prod.mk.injEq .. |>.mp hk
      have hr2 := Option.some.inj hget
      rw [hc1, hc2, ← hr2]
      exact hgood
    · exact hinv c a r hget

theorem MultiLayerStrategy.CacheInv_of_reachable (llm : Option AnalyzeFun)
    (cache : Cache) (h : MultiLayerStrategy.Reachable llm cache) :
    MultiLayerStrategy.CacheInv cache := by
  induction h with
  | init => exact MultiLayerStrategy.CacheInv_nil
  | step t content u hr ih => exact MultiLayerStrategy.CacheInv_step llm t _ content u ih



/-- Cache-hit path of `analyze_content`: the stored object is returned and
written back with the `hitCopy` overlay applied. -/
theorem MultiLayerStrategy.analyze_content_hit (llm : Option AnalyzeFun) (t : Timing)
    (cache : Cache) (content : String) (u : UserContext) (cached : CurationResult)
    (h : cacheGet (content, u.age_category) cache = some cached) :
    MultiLayerStrategy.analyze_content llm t cache content u =
      (Except.ok (MultiLayerStrategy.hitCopy cached),
       cacheSet (content, u.age_category) (MultiLayerStrategy.hitCopy cached) cache) := by
  unfold MultiLayerStrategy.analyze_content MultiLayerStrategy.hitCopy
  rw [h]

/-- Every successful `analyze_content` call stores exactly the object it
returns under the (content, age_category) key. -/
theorem MultiLayerStrategy.analyze_ok_stored (llm : Option AnalyzeFun) (t : Timing)
    (cache : Cache) (content : String) (u : UserContext) (r : CurationResult)
    (h : (MultiLayerStrategy.analyze_content llm t cache content u).1 = Except.ok r) :
    (MultiLayerStrategy.analyze_content llm t cache content u).2 =
      cacheSet (content, u.age_category) r cache := by
  unfold MultiLayerStrategy.analyze_content at h ⊢
  rcases hc : cacheGet (content, u.age_category) cache with _ | cached
  · rcases hf : FastFilterLayer.check t.dtFast content with _ | fr
    · rcases hs : SpecializedAILayer.analyze t.dtSpec content with _ | sr
      · rcases hreq : MultiLayerStrategy.requires_llm_analysis content u with _ | _
        · simp only [hc, hf, hs, hreq, Bool.false_eq_true, if_false] at h ⊢
          rw [← Except.ok.inj h]
        · rcases llm with _ | f
          · simp only [hc, hf, hs, hreq, if_true] at h ⊢
            rw [← Except.ok.inj h]
          · rcases he : f content u with e | lr
            · simp [hc, hf, hs, hreq, he] at h
            · simp only [hc, hf, hs, hreq, he, if_true] at h ⊢
              rw [← Except.ok.inj h]
      · simp only [hc, hf, hs] at h ⊢
        rw [← Except.ok.inj h]
    · simp only [hc, hf] at h ⊢
      rw [← Except.ok.inj h]
  · simp only [hc] at h ⊢
    rw [← Except.ok.inj h]

/-! ### Claims -/

/-- C1: for every configured strategy tag, engine elapsed time and error
raised by the active strategy's `analyze_content`, `curate_content`
catches the error and returns a synthesized result (the model's return
type is `CurationResult`, never an exception) with action "caution",
confidence 0.0, a reason containing the error message (it is
`"Engine error: "` followed by the message), and strategy_used
"error_handling". -/
theorem curationEngine_error_path (strategyTag : String) (dt : ℚ) (e : String) :
    (CurationEngine.curate_content strategyTag dt (Except.error e)).action = "caution" ∧
    (CurationEngine.curate_content strategyTag dt (Except.error e)).confidence = 0 ∧
    (CurationEngine.curate_content strategyTag dt (Except.error e)).reason =
      "Engine error: " ++ e ∧
    (CurationEngine.curate_content strategyTag dt (Except.error e)).strategy_used =
      "error_handling" :=
  ⟨rfl, rfl, rfl, rfl⟩

/-- C2 counterexample: the cached instance IS mutated after being cached.
A first call on "hello" stores an allow result with processing_time_ms 10;
after a second (cache-hit) call on the same content and age, the stored
entry's processing_time_ms has changed to 1, so the cached result was
mutated in place rather than copied. -/
theorem multiLayer_cached_instance_mutated :
    (cacheGet ("hello", "ADULT")
        (MultiLayerStrategy.analyze_content none ⟨1/100, 0, 0⟩ [] "hello" ⟨"ADULT"⟩).2).map
      CurationResult.processing_time_ms = some 10 ∧
    (cacheGet ("hello", "ADULT")
        (MultiLayerStrategy.analyze_content none ⟨1/100, 0, 0⟩
          (MultiLayerStrategy.analyze_content none ⟨1/100, 0, 0⟩ [] "hello" ⟨"ADULT"⟩).2
          "hello" ⟨"ADULT"⟩).2).map
      CurationResult.processing_time_ms = some 1 :=
  ⟨by with_unfolding_all rfl, by with_unfolding_all rfl⟩

/-- C2 amended: on a cache hit, `analyze_content` returns the cached
instance itself with an in-place overlay (not a copy): processing_time_ms
is forced to 1, metadata key `cache_hit` is set to true, and the cache
entry reflects the same mutation; the instance's action, confidence and
safety_score are unchanged by the cache-hit path. -/
theorem multiLayer_cache_hit_overlay (llm : Option AnalyzeFun) (t : Timing)
    (cache : Cache) (content : String) (u : UserContext) (cached : CurationResult)
    (h : cacheGet (content, u.age_category) cache = some cached) :
    MultiLayerStrategy.analyze_content llm t cache content u =
      (Except.ok (MultiLayerStrategy.hitCopy cached),
       cacheSet (content, u.age_category) (MultiLayerStrategy.hitCopy cached) cache) ∧
    (MultiLayerStrategy.hitCopy cached).action = cached.action ∧
    (MultiLayerStrategy.hitCopy cached).confidence = cached.confidence ∧
    (MultiLayerStrategy.hitCopy cached).safety_score = cached.safety_score ∧
    (MultiLayerStrategy.hitCopy cached).processing_time_ms = 1 ∧
    dictGet "cache_hit" ((MultiLayerStrategy.hitCopy cached).metadata.getD []) =
      some (PyVal.bool true) :=
  ⟨MultiLayerStrategy.analyze_content_hit llm t cache content u cached h,
   rfl, rfl, rfl, rfl, dictGet_dictSet_self "cache_hit" (PyVal.bool true) _⟩

/-- Witness for the amended C2 at a concrete cached entry. -/
theorem multiLayer_cache_hit_overlay_witness :
    MultiLayerStrategy.analyze_content none ⟨0, 0, 0⟩
        [(("a", "ADULT"), MultiLayerStrategy.allowResult 0)] "a" ⟨"ADULT"⟩ =
      (Except.ok (MultiLayerStrategy.hitCopy (MultiLayerStrategy.allowResult 0)),
       cacheSet ("a", "ADULT") (MultiLayerStrategy.hitCopy (MultiLayerStrategy.allowResult 0))
         [(("a", "ADULT"), MultiLayerStrategy.allowResult 0)]) ∧
    (MultiLayerStrategy.hitCopy (MultiLayerStrategy.allowResult 0)).action =
      (MultiLayerStrategy.allowResult 0).action :=
  ⟨(multiLayer_cache_hit_overlay none ⟨0, 0, 0⟩
      [(("a", "ADULT"), MultiLayerStrategy.allowResult 0)] "a" ⟨"ADULT"⟩
      (MultiLayerStrategy.allowResult 0) (by with_unfolding_all rfl)).1,
   (multiLayer_cache_hit_overlay none ⟨0, 0, 0⟩
      [(("a", "ADULT"), MultiLayerStrategy.allowResult 0)] "a" ⟨"ADULT"⟩
      (MultiLayerStrategy.allowResult 0) (by with_unfolding_all rfl)).2.1⟩

/-- C3: for content matching at least one fast-filter pattern and any user
context, `analyze_content` (from any cache state the strategy itself can
reach) returns action "block", strategy_used "fast_filter" and confidence
at least 0.9. -/
theorem multiLayer_fast_filter_blocks (llm : Option AnalyzeFun) (t : Timing)
    (cache : Cache) (content : String) (u : UserContext)
    (hreach : MultiLayerStrategy.Reachable llm cache)
    (hmatch : FastFilterLayer.matched content = true) :
    ∃ r, (MultiLayerStrategy.analyze_content llm t cache content u).1 = Except.ok r ∧
      r.action = "block" ∧ r.strategy_used = "fast_filter" ∧ (9:ℚ)/10 ≤ r.confidence := by
  have hinv := MultiLayerStrategy.CacheInv_of_reachable llm cache hreach
  rcases hc : cacheGet (content, u.age_category) cache with _ | cached
  · rcases hf : FastFilterLayer.check t.dtFast content with _ | fr
    · have hm := MultiLayerStrategy.matched_false_of_check_none t.dtFast content hf
      rw [hm] at hmatch
      exact absurd hmatch (by simp)
    · refine ⟨fr, ?_, ?_⟩
      · unfold MultiLayerStrategy.analyze_content
        simp [hc, hf]
      · obtain ⟨_, hb, hsu, hconf⟩ := FastFilterLayer.check_eq_some_spec t.dtFast content fr hf
        exact ⟨hb, hsu, hconf⟩
  · have hgood := hinv content u.age_category cached hc
    obtain ⟨hb, hsu, hconf⟩ := hgood.1 hmatch
    refine ⟨MultiLayerStrategy.hitCopy cached, ?_, hb, hsu, hconf⟩
    rw [MultiLayerStrategy.analyze_content_hit llm t cache content u cached hc]

/-- Witness for C3: a harmful-URL content on the empty (initial) cache. -/
theorem multiLayer_fast_filter_blocks_witness :
    ∃ r, (MultiLayerStrategy.analyze_content none ⟨0, 0, 0⟩ []
        "Check out pornhub.com" ⟨"ADULT"⟩).1 = Except.ok r ∧
      r.action = "block" ∧ r.strategy_used = "fast_filter" ∧ (9:ℚ)/10 ≤ r.confidence :=
  multiLayer_fast_filter_blocks none ⟨0, 0, 0⟩ [] "Check out pornhub.com" ⟨"ADULT"⟩
    MultiLayerStrategy.Reachable.init (by decide)

/-- C4: when no fast-filter pattern matches, no specialized threshold
fires and no escalation condition holds, `analyze_content` (from any
reachable cache state) returns action "allow" with confidence 0.8,
safety_score 0.9 and strategy_used "multi_layer_auto". -/
theorem multiLayer_default_allow (llm : Option AnalyzeFun) (t : Timing)
    (cache : Cache) (content : String) (u : UserContext)
    (hreach : MultiLayerStrategy.Reachable llm cache)
    (hfast : FastFilterLayer.matched content = false)
    (hspec : SpecializedAILayer.fires content = false)
    (hesc : MultiLayerStrategy.requires_llm_analysis content u = false) :
    ∃ r, (MultiLayerStrategy.analyze_content llm t cache content u).1 = Except.ok r ∧
      r.action = "allow" ∧ r.confidence = 8/10 ∧ r.safety_score = 9/10 ∧
      r.strategy_used = "multi_layer_auto" := by
  have hinv := MultiLayerStrategy.CacheInv_of_reachable llm cache hreach
  rcases hc : cacheGet (content, u.age_category) cache with _ | cached
  · have h12 : FastFilterLayer.profanityHit content = false ∧
        FastFilterLayer.urlHit content = false := by
      simpa [FastFilterLayer.matched] using hfast
    have hf : FastFilterLayer.check t.dtFast content = none :=
      (FastFilterLayer.check_eq_none_iff t.dtFast content).mpr h12
    have hs : SpecializedAILayer.analyze t.dtSpec content = none :=
      (SpecializedAILayer.analyze_eq_none_iff t.dtSpec content).mpr hspec
    refine ⟨MultiLayerStrategy.allowResult t.dtSelf, ?_, rfl, rfl, rfl, rfl⟩
    unfold MultiLayerStrategy.analyze_content
    simp [hc, hf, hs, hesc]
  · have hgood := hinv content u.age_category cached hc
    have hesc2 : MultiLayerStrategy.requires_llm_analysis content ⟨u.age_category⟩ = false := hesc
    obtain ⟨hb, hcf, hsf, hsu⟩ := hgood.2 hfast hspec hesc2
    refine ⟨MultiLayerStrategy.hitCopy cached, ?_, hb, hcf, hsf, hsu⟩
    rw [MultiLayerStrategy.analyze_content_hit llm t cache content u cached hc]

/-- Witness for C4: an innocuous short content for an adult user on the
initial cache. -/
theorem multiLayer_default_allow_witness :
    ∃ r, (MultiLayerStrategy.analyze_content none ⟨0, 0, 0⟩ []
        "Just had a great lunch today" ⟨"ADULT"⟩).1 = Except.ok r ∧
      r.action = "allow" ∧ r.confidence = 8/10 ∧ r.safety_score = 9/10 ∧
      r.strategy_used = "multi_layer_auto" :=
  multiLayer_default_allow none ⟨0, 0, 0⟩ [] "Just had a great lunch today" ⟨"ADULT"⟩
    MultiLayerStrategy.Reachable.init (by decide) (by with_unfolding_all rfl) (by decide)


/-- C5: `FastFilterLayer.check`'s decision is a pure function of the
content string: a profanity/harmful-language match yields the first
rule's block with confidence 0.95; otherwise a harmful-URL match yields a
block with confidence 0.90 (profanity rules checked before URL rules);
the result is none exactly when no rule in either category matches; and
the decision core does not depend on the measured time, the only other
input. -/
theorem fastFilter_check_spec (dt : ℚ) (content : String) :
    (FastFilterLayer.profanityHit content = true →
      ∃ r, FastFilterLayer.check dt content = some r ∧
        r.action = "block" ∧ r.confidence = 95/100 ∧ r.strategy_used = "fast_filter") ∧
    (FastFilterLayer.profanityHit content = false →
     FastFilterLayer.urlHit content = true →
      ∃ r, FastFilterLayer.check dt content = some r ∧
        r.action = "block" ∧ r.confidence = 9/10 ∧ r.strategy_used = "fast_filter") ∧
    (FastFilterLayer.check dt content = none ↔
      (FastFilterLayer.profanityHit content = false ∧
       FastFilterLayer.urlHit content = false)) ∧
    (∀ dt2 : ℚ, Option.map decisionCore (FastFilterLayer.check dt content) =
      Option.map decisionCore (FastFilterLayer.check dt2 content)) := by
  refine ⟨?_, ?_, FastFilterLayer.check_eq_none_iff dt content, ?_⟩
  · intro h1
    refine ⟨FastFilterLayer.profanityResult dt, ?_, rfl, rfl, rfl⟩
    unfold FastFilterLayer.check
    rw [if_pos h1]
  · intro h1 h2
    refine ⟨FastFilterLayer.urlResult dt, ?_, rfl, rfl, rfl⟩
    unfold FastFilterLayer.check
    rw [if_neg (by simp [h1]), if_pos h2]
  · intro dt2
    unfold FastFilterLayer.check
    by_cases h1 : FastFilterLayer.profanityHit content <;>
      by_cases h2 : FastFilterLayer.urlHit content <;>
        simp [h1, h2, decisionCore, FastFilterLayer.profanityResult, FastFilterLayer.urlResult]

/-- Witness for C5: a profanity match on concrete content. -/
theorem fastFilter_check_spec_witness :
    ∃ r, FastFilterLayer.check 0 "damn it" = some r ∧
      r.action = "block" ∧ r.confidence = 95/100 ∧ r.strategy_used = "fast_filter" :=
  (fastFilter_check_spec 0 "damn it").1 (by decide)

/-- C6: the hybrid strategy delegates to the LLM-only strategy with the
result retagged "hybrid_llm" exactly when the content contains
"demo"/"test", a nuance-watchlist word, an educational-watchlist word, or
more than one political-watchlist word; otherwise it delegates to the
multi-layer strategy with the result retagged "hybrid_multi"; content
containing "education" takes the LLM route. -/
theorem hybrid_routing (llmOnly : AnalyzeFun) (mlLlm : Option AnalyzeFun) (t : Timing)
    (cache : Cache) (content : String) (u : UserContext) :
    (HybridStrategy.should_use_llm_only content u =
      ((pyInLower "demo" content || pyInLower "test" content) ||
       (["cultural", "religious", "philosophical", "ethical",
         "moral", "values", "belief", "opinion", "perspective"] : List String).any
         (fun w => pyInLower w content) ||
       (["learn", "education", "teaching", "academic",
         "study", "research", "knowledge"] : List String).any
         (fun w => pyInLower w content) ||
       decide ((((["political", "government", "policy", "election"] : List String).filter
         (fun w => pyInLower w content)).length) > 1))) ∧
    (∀ r, HybridStrategy.should_use_llm_only content u = true →
      llmOnly content u = Except.ok r →
      (HybridStrategy.analyze_content llmOnly mlLlm t cache content u).1 =
        Except.ok { r with strategy_used := "hybrid_llm" }) ∧
    (∀ r c2, HybridStrategy.should_use_llm_only content u = false →
      MultiLayerStrategy.analyze_content mlLlm t cache content u = (Except.ok r, c2) →
      (HybridStrategy.analyze_content llmOnly mlLlm t cache content u).1 =
        Except.ok { r with strategy_used := "hybrid_multi" }) ∧
    (∀ r, pyInLower "education" content = true →
      llmOnly content u = Except.ok r →
      (HybridStrategy.analyze_content llmOnly mlLlm t cache content u).1 =
        Except.ok { r with strategy_used := "hybrid_llm" }) := by
  have hedu : pyInLower "education" content = true →
      HybridStrategy.should_use_llm_only content u = true := by
    intro h
    have hany : ((["learn", "education", "teaching", "academic",
        "study", "research", "knowledge"] : List String).any
          (fun w => pyInLower w content)) = true :=
      List.any_eq_true.mpr ⟨"education", by simp, h⟩
    unfold HybridStrategy.should_use_llm_only
    simp [hany]
  refine ⟨rfl, ?_, ?_, ?_⟩
  · intro r hcond hok
    unfold HybridStrategy.analyze_content
    simp [hcond, hok]
  · intro r c2 hcond hml
    unfold HybridStrategy.analyze_content
    simp [hcond, hml]
  · intro r h hok
    unfold HybridStrategy.analyze_content
    simp [hedu h, hok]

/-- Witness for C6: content containing "education" routed to an LLM that
returns successfully. -/
theorem hybrid_routing_witness :
    (HybridStrategy.analyze_content
        (fun _ _ => Except.ok (MultiLayerStrategy.allowResult 0)) none ⟨0, 0, 0⟩ []
        "education reform" ⟨"ADULT"⟩).1 =
      Except.ok { MultiLayerStrategy.allowResult 0 with strategy_used := "hybrid_llm" } :=
  (hybrid_routing (fun _ _ => Except.ok (MultiLayerStrategy.allowResult 0)) none ⟨0, 0, 0⟩ []
    "education reform" ⟨"ADULT"⟩).2.2.2 (MultiLayerStrategy.allowResult 0) (by decide) rfl

/-- C7: a second `analyze_content` call with identical content and
age_category after a successful first call is served from the cache: it
returns the first call's result with only `processing_time_ms` forced to
1 and the `cache_hit` metadata flag added; action, confidence and
safety_score are identical, and every other metadata key is unchanged. -/
theorem multiLayer_idempotent (llm : Option AnalyzeFun) (t1 t2 : Timing)
    (cache : Cache) (content : String) (u1 u2 : UserContext) (r1 : CurationResult)
    (hage : u2.age_category = u1.age_category)
    (h1 : (MultiLayerStrategy.analyze_content llm t1 cache content u1).1 = Except.ok r1) :
    (MultiLayerStrategy.analyze_content llm t2
        (MultiLayerStrategy.analyze_content llm t1 cache content u1).2 content u2).1 =
      Except.ok (MultiLayerStrategy.hitCopy r1) ∧
    (MultiLayerStrategy.hitCopy r1).action = r1.action ∧
    (MultiLayerStrategy.hitCopy r1).confidence = r1.confidence ∧
    (MultiLayerStrategy.hitCopy r1).safety_score = r1.safety_score ∧
    (MultiLayerStrategy.hitCopy r1).processing_time_ms = 1 ∧
    dictGet "cache_hit" ((MultiLayerStrategy.hitCopy r1).metadata.getD []) =
      some (PyVal.bool true) ∧
    (∀ k, k ≠ "cache_hit" →
      dictGet k ((MultiLayerStrategy.hitCopy r1).metadata.getD []) =
        dictGet k (r1.metadata.getD [])) := by
  have hstore := MultiLayerStrategy.analyze_ok_stored llm t1 cache content u1 r1 h1
  have hget : cacheGet (content, u2.age_category)
      (MultiLayerStrategy.analyze_content llm t1 cache content u1).2 = some r1 := by
    rw [hage, hstore]
    exact cacheGet_cacheSet_self (content, u1.age_category) r1 cache
  rw [MultiLayerStrategy.analyze_content_hit llm t2 _ content u2 r1 hget]
  exact ⟨rfl, rfl, rfl, rfl, rfl,
    dictGet_dictSet_self "cache_hit" (PyVal.bool true) _,
    fun k hk => dictGet_dictSet_ne k "cache_hit" (PyVal.bool true) _ hk⟩

/-- Witness for C7: two successive calls on "hello" for an adult user
starting from the empty cache. -/
theorem multiLayer_idempotent_witness :
    (MultiLayerStrategy.analyze_content none ⟨1/100, 0, 0⟩
        (MultiLayerStrategy.analyze_content none ⟨1/100, 0, 0⟩ [] "hello" ⟨"ADULT"⟩).2
        "hello" ⟨"ADULT"⟩).1 =
      Except.ok (MultiLayerStrategy.hitCopy (MultiLayerStrategy.allowResult (1/100))) ∧
    (MultiLayerStrategy.hitCopy (MultiLayerStrategy.allowResult (1/100))).action =
      (MultiLayerStrategy.allowResult (1/100)).action :=
  ⟨(multiLayer_idempotent none ⟨1/100, 0, 0⟩ ⟨1/100, 0, 0⟩ [] "hello" ⟨"ADULT"⟩ ⟨"ADULT"⟩
      (MultiLayerStrategy.allowResult (1/100)) rfl (by with_unfolding_all rfl)).1,
   (multiLayer_idempotent none ⟨1/100, 0, 0⟩ ⟨1/100, 0, 0⟩ [] "hello" ⟨"ADULT"⟩ ⟨"ADULT"⟩
      (MultiLayerStrategy.allowResult (1/100)) rfl (by with_unfolding_all rfl)).2.1⟩

/-- C8 counterexample: on the error path the engine does not stamp
`engine_strategy` (nor `total_processing_time_ms`); the synthesized
caution result's metadata holds only the `error` key. -/
theorem curationEngine_error_metadata_missing :
    dictGet "engine_strategy"
      ((CurationEngine.curate_content "hybrid" 0 (Except.error "boom")).metadata.getD []) =
      none ∧
    dictGet "total_processing_time_ms"
      ((CurationEngine.curate_content "hybrid" 0 (Except.error "boom")).metadata.getD []) =
      none :=
  ⟨by decide, by decide⟩

/-- C8 amended: on the success path the engine stamps `engine_strategy`
and `total_processing_time_ms` into the result's metadata, keeping every
other strategy-set key and its value; the error-path result's metadata
carries only the `error` key (no engine stamps). -/
theorem curationEngine_metadata_stamping (tag : String) (dt : ℚ) (r : CurationResult)
    (e : String) :
    dictGet "engine_strategy"
        ((CurationEngine.curate_content tag dt (Except.ok r)).metadata.getD []) =
      some (PyVal.str tag) ∧
    dictGet "total_processing_time_ms"
        ((CurationEngine.curate_content tag dt (Except.ok r)).metadata.getD []) =
      some (PyVal.int (pyInt (dt * 1000))) ∧
    (∀ k, k ≠ "engine_strategy" → k ≠ "total_processing_time_ms" →
      dictGet k ((CurationEngine.curate_content tag dt (Except.ok r)).metadata.getD []) =
        dictGet k (r.metadata.getD [])) ∧
    (CurationEngine.curate_content tag dt (Except.error e)).metadata =
      some [("error", PyVal.str e)] := by
  refine ⟨?_, ?_, ?_, rfl⟩
  · show dictGet "engine_strategy"
      (dictSet "total_processing_time_ms" (PyVal.int (pyInt (dt * 1000)))
        (dictSet "engine_strategy" (PyVal.str tag) (r.metadata.getD []))) = _
    rw [dictGet_dictSet_ne _ _ _ _ (by decide)]
    exact dictGet_dictSet_self "engine_strategy" (PyVal.str tag) _
  · exact dictGet_dictSet_self "total_processing_time_ms" _ _
  · intro k hk1 hk2
    show dictGet k
      (dictSet "total_processing_time_ms" (PyVal.int (pyInt (dt * 1000)))
        (dictSet "engine_strategy" (PyVal.str tag) (r.metadata.getD []))) = _
    rw [dictGet_dictSet_ne _ _ _ _ hk2, dictGet_dictSet_ne _ _ _ _ hk1]

/-- Witness for the amended C8 at a concrete strategy result carrying its
own metadata key. -/
theorem curationEngine_metadata_stamping_witness :
    dictGet "engine_strategy"
        ((CurationEngine.curate_content "multi_layer" 0
          (Except.ok (MultiLayerStrategy.cautionResult 0))).metadata.getD []) =
      some (PyVal.str "multi_layer") ∧
    dictGet "baml_required"
        ((CurationEngine.curate_content "multi_layer" 0
          (Except.ok (MultiLayerStrategy.cautionResult 0))).metadata.getD []) =
      dictGet "baml_required" ((MultiLayerStrategy.cautionResult 0).metadata.getD []) :=
  ⟨(curationEngine_metadata_stamping "multi_layer" 0 (MultiLayerStrategy.cautionResult 0) "e").1,
   (curationEngine_metadata_stamping "multi_layer" 0
      (MultiLayerStrategy.cautionResult 0) "e").2.2.1 "baml_required" (by decide) (by decide)⟩

/-- C9 is contradicted by the code at the escalation-without-LLM branch:
that construction site passes `(time.time() - start_time) * 1000` with no
`int(...)`, so for an elapsed time of 0.5 ms the stored
`processing_time_ms` is the non-integer 1/2 (in Python, a float), while
the dataclass declares the field `int` and every other site truncates. -/
theorem multiLayer_cautious_time_not_integer :
    (MultiLayerStrategy.analyze_content none ⟨1/2000, 0, 0⟩ []
        "Is this political?" ⟨"ADULT"⟩).1 =
      Except.ok (MultiLayerStrategy.cautionResult (1/2000)) ∧
    (MultiLayerStrategy.cautionResult (1/2000)).processing_time_ms = 1/2 ∧
    ¬ ∃ n : ℤ, (MultiLayerStrategy.cautionResult (1/2000)).processing_time_ms = (n : ℚ) := by
  have htime : (MultiLayerStrategy.cautionResult (1/2000)).processing_time_ms = 1/2 := by
    norm_num [MultiLayerStrategy.cautionResult]
  refine ⟨by with_unfolding_all rfl, htime, ?_⟩
  rintro ⟨n, hn⟩
  rw [htime] at hn
  have hden : ((1:ℚ)/2).den = 2 := by norm_num
  rw [hn] at hden
  simp [Rat.den_intCast] at hden

/-- C10: when the escalation step's delegated LLM call raises, the
exception propagates out of `analyze_content` and the cache is left
exactly as it was; in particular no entry exists under the failed call's
(content, age_category) key afterwards. -/
theorem multiLayer_llm_error_propagates (f : AnalyzeFun) (t : Timing) (cache : Cache)
    (content : String) (u : UserContext) (e : String)
    (hmiss : cacheGet (content, u.age_category) cache = none)
    (hfast : FastFilterLayer.check t.dtFast content = none)
    (hspec : SpecializedAILayer.analyze t.dtSpec content = none)
    (hreq : MultiLayerStrategy.requires_llm_analysis content u = true)
    (herr : f content u = Except.error e) :
    MultiLayerStrategy.analyze_content (some f) t cache content u = (Except.error e, cache) ∧
    cacheGet (content, u.age_category)
      (MultiLayerStrategy.analyze_content (some f) t cache content u).2 = none := by
  have hmain : MultiLayerStrategy.analyze_content (some f) t cache content u =
      (Except.error e, cache) := by
    unfold MultiLayerStrategy.analyze_content
    simp [hmiss, hfast, hspec, hreq, herr]
  refine ⟨hmain, ?_⟩
  rw [hmain]
  exact hmiss

/-- Witness for C10: an escalating content whose LLM raises. -/
theorem multiLayer_llm_error_propagates_witness :
    MultiLayerStrategy.analyze_content (some fun _ _ => Except.error "llm down") ⟨0, 0, 0⟩ []
        "Is this political?" ⟨"ADULT"⟩ = (Except.error "llm down", []) :=
  (multiLayer_llm_error_propagates (fun _ _ => Except.error "llm down") ⟨0, 0, 0⟩ []
    "Is this political?" ⟨"ADULT"⟩ "llm down" rfl (by decide) (by with_unfolding_all rfl)
    (by decide) rfl).1
